import Mathlib

/-!
Verification of the carbon-http-server HTTP/1.1 codec core.

This file is a shallow embedding of the message codec found under
crates/http_server/src: the byte-level request parser (http/parser/mod.rs,
http/parser/line.rs), the error taxonomy and status mapping
(http/parser/error.rs), the header name/map model (http/header),
the URL percent codec (http/uri/mod.rs), the response serializer
(Sender in http/parser/mod.rs) and the response builder
(http/response/builder.rs).

Bytes are modelled as natural numbers (the code manipulates u8 values;
where a bound matters it appears as an explicit hypothesis).  Rust
functions that can panic (todo!(), unwrap(), unreachable!()) are modelled
with an explicit panic outcome so that reachability of those panics can be
stated and proved.  Strings produced by the code are modelled by their
byte content.
-/

set_option maxRecDepth 4000

/-- Byte content of an ASCII string literal (each char code point is the byte). -/
def strBytes (s : String) : List Nat := s.data.map Char.toNat

/-- Decimal digits (as bytes) of a natural number, modelling integer Display
and to_string in Rust. -/
def natDecimal (n : Nat) : List Nat := (Nat.toDigits 10 n).map Char.toNat

/-- Bytes of a sub-range, modelling a Rust slice expression buf, from a
(start, stop) half-open range of indices. -/
def sliceRange (buf : List Nat) (r : Nat × Nat) : List Nat :=
  (buf.take r.2).drop r.1

/-- Token characters, from is_tchar in http/parser/mod.rs. -/
def is_tchar (b : Nat) : Bool :=
  (65 ≤ b && b ≤ 90) || (97 ≤ b && b ≤ 122) || (48 ≤ b && b ≤ 57) ||
    b == 33 || b == 35 || b == 36 || b == 37 || b == 38 || b == 39 ||
    b == 42 || b == 43 || b == 45 || b == 46 || b == 94 || b == 95 ||
    b == 96 || b == 124 || b == 126

/-- ASCII lowercase of one byte, modelling u8::to_ascii_lowercase. -/
def toLowerByte (b : Nat) : Nat := if 65 ≤ b && b ≤ 90 then b + 32 else b

/-- ASCII lowercase of a byte sequence. -/
def lowerBytes (bs : List Nat) : List Nat := bs.map toLowerByte

/-- ASCII decimal digit test. -/
def isDigitByte (b : Nat) : Bool := 48 ≤ b && b ≤ 57

/-- Value of a decimal digit string (bytes assumed to be digits). -/
def digitsVal (bs : List Nat) : Nat := bs.foldl (fun acc b => acc * 10 + (b - 48)) 0

/-- Rust unsigned integer parsing from a string (str::parse for uN): an
optional leading plus sign, then one or more ASCII digits, value below the
type bound (overflow is an error). -/
def parseUnsigned (bound : Nat) (bs : List Nat) : Option Nat :=
  let ds := match bs with
    | 43 :: rest => rest
    | _ => bs
  if ds.isEmpty then none
  else if ds.all isDigitByte then
    let v := digitsVal ds
    if v < bound then some v else none
  else none

/-- Continuation byte test for UTF-8. -/
def isCont (b : Nat) : Bool := 128 ≤ b && b ≤ 191

/-- Modelled from the spec / Rust standard library: validity predicate of
std::str::from_utf8 (well-formed UTF-8: no overlong forms, no surrogates,
maximum code point 0x10FFFF).  The repository calls from_utf8 but the
function itself is outside the repository. -/
def isValidUtf8 : List Nat → Bool
  | [] => true
  | b :: rest =>
    if b ≤ 127 then isValidUtf8 rest
    else if 194 ≤ b && b ≤ 223 then
      match rest with
      | c1 :: r2 => isCont c1 && isValidUtf8 r2
      | _ => false
    else if b == 224 then
      match rest with
      | c1 :: c2 :: r2 => (160 ≤ c1 && c1 ≤ 191) && isCont c2 && isValidUtf8 r2
      | _ => false
    else if 225 ≤ b && b ≤ 236 then
      match rest with
      | c1 :: c2 :: r2 => isCont c1 && isCont c2 && isValidUtf8 r2
      | _ => false
    else if b == 237 then
      match rest with
      | c1 :: c2 :: r2 => (128 ≤ c1 && c1 ≤ 159) && isCont c2 && isValidUtf8 r2
      | _ => false
    else if 238 ≤ b && b ≤ 239 then
      match rest with
      | c1 :: c2 :: r2 => isCont c1 && isCont c2 && isValidUtf8 r2
      | _ => false
    else if b == 240 then
      match rest with
      | c1 :: c2 :: c3 :: r2 => (144 ≤ c1 && c1 ≤ 191) && isCont c2 && isCont c3 && isValidUtf8 r2
      | _ => false
    else if 241 ≤ b && b ≤ 243 then
      match rest with
      | c1 :: c2 :: c3 :: r2 => isCont c1 && isCont c2 && isCont c3 && isValidUtf8 r2
      | _ => false
    else if b == 244 then
      match rest with
      | c1 :: c2 :: c3 :: r2 => (128 ≤ c1 && c1 ≤ 143) && isCont c2 && isCont c3 && isValidUtf8 r2
      | _ => false
    else false

/-! ## URL percent codec, from http/uri/mod.rs -/

/-- Unreserved URI characters, from is_unreserved in http/uri/mod.rs. -/
def is_unreserved (b : Nat) : Bool :=
  (65 ≤ b && b ≤ 90) || (97 ≤ b && b ≤ 122) || (48 ≤ b && b ≤ 57) ||
    b == 45 || b == 46 || b == 95 || b == 126

/-- Uppercase hex digit table HEX_CHARS_UPPER; indexing is in bounds for
every nibble of a u8. -/
def hexUpper (d : Nat) : Nat := (strBytes "0123456789ABCDEF").getD d 0

/-- Percent encoding, from url_encode in http/uri/mod.rs.  The Rust function
returns a String; it is modelled by the byte content of that String. -/
def url_encode : List Nat → List Nat
  | [] => []
  | b :: rest =>
    if is_unreserved b then b :: url_encode rest
    else 37 :: hexUpper (b / 16) :: hexUpper (b % 16) :: url_encode rest

/-- Error type of url_decode, from UrlDecodeError in http/uri/mod.rs. -/
inductive UrlDecodeError
  | malformedEncoding
  | invalidUtf8
  deriving DecidableEq, Repr

/-- Hex digit value, from hex_to_digit in http/uri/mod.rs. -/
def hex_to_digit (c : Nat) : Except UrlDecodeError Nat :=
  if 48 ≤ c && c ≤ 57 then .ok (c - 48)
  else if 97 ≤ c && c ≤ 102 then .ok (c - 97 + 10)
  else if 65 ≤ c && c ≤ 70 then .ok (c - 65 + 10)
  else .error .malformedEncoding

/-- Byte-level loop of url_decode in http/uri/mod.rs: a percent byte must be
followed by two hex digits, which decode to one byte; all other bytes pass
through unchanged. -/
def url_decode_bytes : List Nat → Except UrlDecodeError (List Nat)
  | [] => .ok []
  | b :: rest =>
    if b == 37 then
      match rest with
      | h1 :: h2 :: r2 =>
        match hex_to_digit h1, hex_to_digit h2 with
        | .ok hi, .ok lo => (url_decode_bytes r2).map (fun ds => (hi * 16 + lo) :: ds)
        | _, _ => .error .malformedEncoding
      | _ => .error .malformedEncoding
    else (url_decode_bytes rest).map (fun ds => b :: ds)

/-- Percent decoding, from url_decode in http/uri/mod.rs: the byte loop
followed by String::from_utf8 (modelled as the UTF-8 validity gate); the
resulting String is modelled by its byte content. -/
def url_decode (input : List Nat) : Except UrlDecodeError (List Nat) :=
  match url_decode_bytes input with
  | .error e => .error e
  | .ok ds => if isValidUtf8 ds then .ok ds else .error .invalidUtf8

/-! ## HTTP version, from http/version.rs -/

/-- HTTP version pair, from HttpVersion in http/version.rs (major and minor
are u8 values in the code; parsing bounds them below 256). -/
structure HttpVersion where
  major : Nat
  minor : Nat
  deriving DecidableEq, Repr

/-- Version parsing, from the FromStr instance of HttpVersion in
http/version.rs: strip the HTTP/ prefix, split once at the first dot,
parse both parts as u8. -/
def HttpVersion.from_str (bs : List Nat) : Option HttpVersion :=
  match bs with
  | 72 :: 84 :: 84 :: 80 :: 47 :: rest =>
    match rest.findIdx? (fun b => b == 46) with
    | none => none
    | some i =>
      match parseUnsigned 256 (rest.take i), parseUnsigned 256 (rest.drop (i + 1)) with
      | some major, some minor => some ⟨major, minor⟩
      | _, _ => none
  | _ => none

/-- Rendered version bytes, from the Display instance of HttpVersion. -/
def HttpVersion.displayBytes (v : HttpVersion) : List Nat :=
  strBytes "HTTP/" ++ natDecimal v.major ++ [46] ++ natDecimal v.minor

/-! ## Methods, from http/method.rs -/

/-- Built-in method tokens, from the Builtin enum in http/method.rs. -/
inductive MethodBuiltin
  | GET | POST | PUT | DELETE | PATCH | OPTIONS | CONNECT | TRACE | HEAD
  deriving DecidableEq, Repr

/-- Built-in method recognition, from the TryFrom of Builtin in
http/method.rs; the match is case sensitive on the exact token. -/
def MethodBuiltin.from_bytes (bs : List Nat) : Option MethodBuiltin :=
  if bs = strBytes "GET" then some .GET
  else if bs = strBytes "POST" then some .POST
  else if bs = strBytes "PUT" then some .PUT
  else if bs = strBytes "DELETE" then some .DELETE
  else if bs = strBytes "PATCH" then some .PATCH
  else if bs = strBytes "OPTIONS" then some .OPTIONS
  else if bs = strBytes "CONNECT" then some .CONNECT
  else if bs = strBytes "TRACE" then some .TRACE
  else if bs = strBytes "HEAD" then some .HEAD
  else none

/-- Method representation, from Method and Repr in http/method.rs. -/
inductive Method
  | builtin (b : MethodBuiltin)
  | custom (bytes : List Nat)
  deriving DecidableEq, Repr

/-- Method construction, from the TryFrom of Method in http/method.rs:
the bytes must be ASCII (AsciiStr::from_ascii), then a built-in token is
recognised, and anything else becomes a custom method. -/
def Method.try_from (bs : List Nat) : Except Unit Method :=
  if bs.all (fun b => b < 128) then
    match MethodBuiltin.from_bytes bs with
    | some b => .ok (.builtin b)
    | none => .ok (.custom bs)
  else .error ()

/-- The method token of a successfully constructed Method is ASCII. -/
def Method.isAscii : Method → Bool
  | .builtin _ => true
  | .custom bs => bs.all (fun b => b < 128)

/-! ## Header names and map, from http/header/mod.rs and map.rs -/

/-- Built-in header names, from the Builtin enum in http/header/mod.rs. -/
inductive HeaderBuiltin
  | Host | ContentLength | TransferEncoding | SetCookie
  | ContentLocation | ContentType | Date | Trailer
  deriving DecidableEq, Repr

/-- Built-in header recognition, from the FromStr of Builtin in
http/header/mod.rs: names longer than 20 bytes are rejected, shorter names
are ASCII-lowercased into a buffer and matched against the canonical
lowercase spellings. -/
def HeaderBuiltin.from_str (bs : List Nat) : Option HeaderBuiltin :=
  if bs.length > 20 then none
  else
    let s := lowerBytes bs
    if s = strBytes "host" then some .Host
    else if s = strBytes "content-length" then some .ContentLength
    else if s = strBytes "transfer-encoding" then some .TransferEncoding
    else if s = strBytes "set-cookie" then some .SetCookie
    else if s = strBytes "content-location" then some .ContentLocation
    else if s = strBytes "content-type" then some .ContentType
    else if s = strBytes "date" then some .Date
    else if s = strBytes "trailer" then some .Trailer
    else none

/-- Canonical spelling of a built-in header, from its Display instance. -/
def HeaderBuiltin.displayBytes : HeaderBuiltin → List Nat
  | .Host => strBytes "Host"
  | .ContentLength => strBytes "Content-Length"
  | .TransferEncoding => strBytes "Transfer-Encoding"
  | .SetCookie => strBytes "Set-Cookie"
  | .ContentLocation => strBytes "Content-Location"
  | .ContentType => strBytes "Content-Type"
  | .Date => strBytes "Date"
  | .Trailer => strBytes "Trailer"

/-- Header name representation, from HeaderName, Repr and Custom in
http/header/mod.rs.  Equality is the derived structural equality of the
Rust type: built-in variants compare by variant, custom names compare by
their raw bytes. -/
inductive HeaderName
  | builtin (b : HeaderBuiltin)
  | custom (bytes : List Nat)
  deriving DecidableEq, Repr

/-- Header name construction, from the TryFrom of HeaderName in
http/header/mod.rs: the bytes must be ASCII, then a built-in name is
recognised case-insensitively and any other name is stored as a custom
name with its original (case-preserving) bytes. -/
def HeaderName.try_from (bs : List Nat) : Except Unit HeaderName :=
  if bs.all (fun b => b < 128) then
    match HeaderBuiltin.from_str bs with
    | some b => .ok (.builtin b)
    | none => .ok (.custom bs)
  else .error ()

/-- Rendered header name, from the Display instances of Builtin and Custom
in http/header/mod.rs (HeaderName delegates to its representation). -/
def HeaderName.displayBytes : HeaderName → List Nat
  | .builtin b => b.displayBytes
  | .custom bs => bs

/-- A header map, from HeaderMap in http/header/map.rs.  The Rust type is a
HashMap from HeaderName to HeaderValue (a list of raw byte segments); it is
modelled as an association list keyed by HeaderName.  Lookup behaviour is
identical; iteration order of the model is the insertion order, a legitimate
instance of the unspecified HashMap iteration order. -/
abbrev HeaderMap := List (HeaderName × List (List Nat))

/-- Lookup of a header entry, from HashMap::get as used by HeaderMap. -/
def mapFind (m : HeaderMap) (k : HeaderName) : Option (List (List Nat)) :=
  match m with
  | [] => none
  | (k2, v) :: rest => if k2 = k then some v else mapFind rest k

/-- Membership test, from HeaderMap::contains. -/
def mapContains (m : HeaderMap) (k : HeaderName) : Bool :=
  (mapFind m k).isSome

/-- Entry update, from HeaderMap::entry(name).push(value): append the value
segment to the existing entry, or insert a fresh entry holding it. -/
def mapEntryPush (m : HeaderMap) (k : HeaderName) (v : List Nat) : HeaderMap :=
  match m with
  | [] => [(k, [v])]
  | (k2, vs) :: rest =>
    if k2 = k then (k2, vs ++ [v]) :: rest
    else (k2, vs) :: mapEntryPush rest k v

/-! ## Error taxonomy, from http/parser/error.rs -/

/-- Error location, from Location in http/parser/error.rs. -/
inductive ErrLocation
  | startLine | headers | body | trailers
  deriving DecidableEq, Repr

/-- Exceeded-limit tags, from LimitKind in http/parser/error.rs. -/
inductive LimitKind
  | requestLineBytes | headerLineBytes | headerBytesTotal | headerCount
  | pathBytes | queryBytes | bodyBytes | chunkSizeBytes | trailerBytesTotal
  deriving DecidableEq, Repr

/-- Kinds of I/O error, standing for std::io::ErrorKind carried by the Io
variant; the mapping under verification never inspects it. -/
inductive IoErrorKind
  | unexpectedEof | other
  deriving DecidableEq, Repr

/-- Parse error kinds, from ParseErrorKind in http/parser/error.rs. -/
inductive ParseErrorKind
  | invalidMethod
  | invalidTarget
  | invalidVersion
  | malformedHeaderLine
  | invalidHeaderName
  | invalidHeaderValue
  | unexpectedByte (expected found : Nat)
  | missingRequiredHeader
  | duplicateHeader
  | conflictingContentLength
  | invalidContentLength
  | invalidTransferEncoding
  | chunkSizeInvalid
  | chunkCrlfMissing
  | chunkExtensionsInvalid
  | tooLarge (what : LimitKind) (limit actual : Nat)
  | incompleteMessage
  | timeout
  | ioError (kind : IoErrorKind)
  | versionNotSupported
  | unsupportedFeature
  deriving DecidableEq, Repr

/-- Structured parse error, from HttpParseError in http/parser/error.rs. -/
structure HttpParseError where
  kind : ParseErrorKind
  location : ErrLocation
  offset : Nat
  line : Option Nat
  deriving DecidableEq, Repr

/-- Status code wrapper, from StatusCode in http/response/mod.rs. -/
structure StatusCode where
  val : Nat
  deriving DecidableEq, Repr

/-- Constant from http/response/mod.rs. -/
def StatusCode.OK : StatusCode := ⟨200⟩

/-- Constant from http/response/mod.rs. -/
def StatusCode.NOT_FOUND : StatusCode := ⟨404⟩

/-- Constant from http/response/mod.rs. -/
def StatusCode.INTERNAL_SERVER_ERROR : StatusCode := ⟨500⟩

/-- Modelled from the spec: the constant StatusCode::BAD_REQUEST is used by
HttpParseError::status_code but is not defined in the files under src; per
the specification all syntax, framing, limit and header errors map to 400
Bad Request. -/
def StatusCode.BAD_REQUEST : StatusCode := ⟨400⟩

/-- Status mapping of a parse error, from HttpParseError::status_code in
http/parser/error.rs: the listed syntax, header and framing kinds map to
BAD_REQUEST and every other kind falls to the catch-all arm mapping to
INTERNAL_SERVER_ERROR. -/
def HttpParseError.status_code (e : HttpParseError) : StatusCode :=
  match e.kind with
  | .invalidMethod | .invalidTarget | .invalidVersion
  | .malformedHeaderLine | .invalidHeaderName | .invalidHeaderValue
  | .unexpectedByte _ _ | .missingRequiredHeader | .duplicateHeader
  | .conflictingContentLength | .invalidContentLength
  | .invalidTransferEncoding | .chunkSizeInvalid | .chunkCrlfMissing
  | .chunkExtensionsInvalid => StatusCode.BAD_REQUEST
  | _ => StatusCode.INTERNAL_SERVER_ERROR

/-! ## Reader line views, from Reader and ReaderLine in http/parser/mod.rs -/

/-- A borrowed line view, from ReaderLine in http/parser/mod.rs: the whole
buffer together with the current start of the unconsumed part of the line
and the exclusive end of the line content (the index before the CR/LF). -/
structure ReaderLine where
  buf : List Nat
  lineStart : Nat
  lineEnd : Nat
  deriving DecidableEq, Repr

/-- Content bytes of the line view, from ReaderLine::as_slice. -/
def lineSlice (l : ReaderLine) : List Nat := sliceRange l.buf (l.lineStart, l.lineEnd)

/-- Emptiness of the line view, from ReaderLine::is_empty. -/
def ReaderLine.isEmptyLine (l : ReaderLine) : Bool := (lineSlice l).isEmpty

/-- Next word, from ReaderLine::next_word: the range before the first SP or
HTAB (or the whole remainder), advancing the line start past it. -/
def ReaderLine.next_word (l : ReaderLine) : Option ((Nat × Nat) × ReaderLine) :=
  if l.lineStart ≥ l.lineEnd then none
  else
    match (lineSlice l).findIdx? (fun b => b == 32 || b == 9) with
    | some sp => some ((l.lineStart, l.lineStart + sp), { l with lineStart := l.lineStart + sp + 1 })
    | none => some ((l.lineStart, l.lineEnd), { l with lineStart := l.lineEnd })

/-- Split at the next occurrence of a byte, from ReaderLine::next: the range
before the byte, advancing past it; nothing when the byte is absent. -/
def ReaderLine.next (l : ReaderLine) (byte : Nat) : Option ((Nat × Nat) × ReaderLine) :=
  if l.lineStart ≥ l.lineEnd then none
  else
    match (lineSlice l).findIdx? (fun b => b == byte) with
    | none => none
    | some i => some ((l.lineStart, l.lineStart + i), { l with lineStart := l.lineStart + i + 1 })

/-- Whitespace-trimmed range of the line remainder, from ReaderLine::trim. -/
def ReaderLine.trim (l : ReaderLine) : Nat × Nat :=
  let isWs := fun (b : Nat) => b == 32 || b == 9
  let lead := ((lineSlice l).takeWhile isWs).length
  let trail := (((lineSlice l).drop lead).reverse.takeWhile isWs).length
  (l.lineStart + lead, l.lineEnd - trail)

/-- Line extraction from the buffer, from Reader::get_line in
http/parser/mod.rs: find the next LF at or after the cursor, place the
content end before a preceding CR when there is one, and advance the cursor
past the LF.  Returns the line view and the new cursor. -/
def getLine (buf : List Nat) (cursor : Nat) : Option (ReaderLine × Nat) :=
  if cursor > buf.length then none
  else
    match (buf.drop cursor).findIdx? (fun b => b == 10) with
    | none => none
    | some rel =>
      let nl := cursor + rel
      let lineEnd := if 0 < rel && (buf.getD (nl - 1) 0 == 13) then nl - 1 else nl
      some (⟨buf, cursor, lineEnd⟩, nl + 1)

/-! ## Request line, from RequestLine in http/parser/line.rs -/

/-- Parsed request line data, from the RequestLine struct in
http/parser/line.rs: ranges of the method and target tokens in the head
bytes, plus the parsed version. -/
structure RequestLineData where
  method : Nat × Nat
  target : Nat × Nat
  version : HttpVersion
  deriving DecidableEq, Repr

/-- Request line parsing, from the LineParse implementation of RequestLine
in http/parser/line.rs: three words (method, target, version), the version
word decoded as ASCII then parsed as an HttpVersion; word or version
failures produce MalformedHeaderLine at the current line start, and
trailing content after the version produces InvalidVersion. -/
def RequestLine.parse (l0 : ReaderLine) : Except HttpParseError RequestLineData :=
  let mkErr := fun (l : ReaderLine) =>
    HttpParseError.mk .malformedHeaderLine .startLine l.lineStart none
  match l0.next_word with
  | none => .error (mkErr l0)
  | some (method, l1) =>
    match l1.next_word with
    | none => .error (mkErr l1)
    | some (target, l2) =>
      match l2.next_word with
      | none => .error (mkErr l2)
      | some (vrange, l3) =>
        let vbytes := sliceRange l0.buf vrange
        if vbytes.all (fun b => b < 128) then
          match HttpVersion.from_str vbytes with
          | none => .error (mkErr l3)
          | some version =>
            if l3.isEmptyLine then .ok ⟨method, target, version⟩
            else .error (HttpParseError.mk .invalidVersion .startLine l3.lineStart none)
        else .error (mkErr l3)

/-! ## Message head scan, from Parser::parse_message in http/parser/mod.rs -/

/-- Name and value ranges of one header line, from HeaderIx in
http/parser/mod.rs. -/
structure HeaderIx where
  name : Nat × Nat
  value : Nat × Nat
  deriving DecidableEq, Repr

/-- Outcome of running a piece of the Rust code: a value, an HttpParseError,
or a Rust panic (todo!(), unwrap() on an error, or unreachable code). -/
inductive PResult (α : Type)
  | ok (a : α)
  | err (e : HttpParseError)
  | panic
  deriving DecidableEq, Repr

/-- Result of the head scan: the parsed start line, the header ranges in
wire order, and the number of bytes consumed (start line through the empty
line, the frozen head bytes). -/
structure HeadData where
  sline : RequestLineData
  hdrs : List HeaderIx
  consumed : Nat
  deriving DecidableEq, Repr

/-- The start-line and header loop of Parser::parse_message in
http/parser/mod.rs, over a buffer that already holds the entire transport
stream (Reader::read appends transport bytes; once the stream is fully
buffered a further read returns zero bytes, the IncompleteMessage case).
The fuel argument stands for the loop iteration count: every iteration that
recurses consumes at least one buffer byte past the cursor, so a fuel of
buffer length plus one is never exhausted; exhaustion is mapped to the
panic outcome.  A non-empty header line starting with SP or HTAB reaches
the obsolete-line-folding todo!() of the source and is therefore a panic. -/
def scanLoop (fuel : Nat) (buf : List Nat) (cursor : Nat) (sline : Option RequestLineData)
    (hdrs : List HeaderIx) (lineCnt : Nat) : PResult HeadData :=
  match fuel with
  | 0 => .panic
  | fuel2 + 1 =>
    match getLine buf cursor with
    | none =>
      .err ⟨.incompleteMessage, if sline.isNone then .startLine else .headers, cursor, some lineCnt⟩
    | some (line, cursor2) =>
      let lineCnt2 := lineCnt + 1
      match sline with
      | none =>
        match RequestLine.parse line with
        | .error e => .err e
        | .ok rl => scanLoop fuel2 buf cursor2 (some rl) hdrs lineCnt2
      | some rl =>
        if line.isEmptyLine then
          .ok ⟨rl, hdrs, cursor2⟩
        else if ((lineSlice line).findIdx? (fun b => b == 32 || b == 9)) == some 0 then
          .panic
        else
          match line.next 58 with
          | none => .err ⟨.malformedHeaderLine, .headers, line.lineStart, some lineCnt2⟩
          | some (name, line2) =>
            if (sliceRange buf name).all is_tchar then
              scanLoop fuel2 buf cursor2 (some rl) (hdrs ++ [⟨name, line2.trim⟩]) lineCnt2
            else .err ⟨.invalidHeaderName, .headers, name.1, some lineCnt2⟩

/-- Head scan of one message, from the loop of Parser::parse_message
started in the Line state with an empty header list. -/
def parseHead (input : List Nat) : PResult HeadData :=
  scanLoop (input.length + 1) input 0 none [] 0

/-- Header map construction after the head is frozen, from the loop over
headers in Parser::parse_message: each name is rebuilt with
HeaderName::try_from (an error there reaches a todo!() and panics, though
the earlier tchar check makes it unreachable) and each value segment is
appended with HeaderMap::entry(name).push(value). -/
def buildHeaderMap (headerBytes : List Nat) (hdrs : List HeaderIx) (m : HeaderMap) :
    PResult HeaderMap :=
  match hdrs with
  | [] => .ok m
  | hix :: rest =>
    match HeaderName.try_from (sliceRange headerBytes hix.name) with
    | .error _ => .panic
    | .ok name =>
      buildHeaderMap headerBytes rest (mapEntryPush m name (sliceRange headerBytes hix.value))

/-- Content-Length value parsing, from the u64 HeaderValueTrait
implementation in http/header/impls.rs: exactly one segment, decoded by
str::from_utf8 then str::parse for u64; any failure is an error value
(DuplicateHeader or a parse error), which the caller in parse_message
unwraps into a panic, so the error payload is irrelevant here. -/
def contentLengthFromValue (vals : List (List Nat)) : Except Unit Nat :=
  match vals with
  | [v] =>
    if isValidUtf8 v then
      match parseUnsigned (2 ^ 64) v with
      | some n => .ok n
      | none => .error ()
    else .error ()
  | _ => .error ()

/-- Message body variants, from Body in http/mod.rs. -/
inductive Body
  | none
  | full (bytes : List Nat)
  deriving DecidableEq, Repr

/-- Body framing, from the body section of Parser::parse_message in
http/parser/mod.rs.  get_header for Transfer-Encoding invokes the todo!()
body of TransferEncodingKind::from_header_value whenever the header is
present, hence a panic; otherwise a present Content-Length is parsed (a
parse failure is unwrapped into a panic) and exactly that many octets are
taken from the remaining stream (read_exact past the end of the stream
fails and is unwrapped into a panic); with neither header the body is
Body::None and nothing is consumed. -/
def frameBody (m : HeaderMap) (rest : List Nat) : PResult (Body × List Nat) :=
  match mapFind m (.builtin .TransferEncoding) with
  | some _ => .panic
  | none =>
    match mapFind m (.builtin .ContentLength) with
    | none => .ok (.none, rest)
    | some vals =>
      match contentLengthFromValue vals with
      | .error _ => .panic
      | .ok cl =>
        if cl ≤ rest.length then .ok (.full (rest.take cl), rest.drop cl)
        else .panic

/-- A parsed request, from Request as constructed by RequestLine::to_output
in http/parser/line.rs (remote is stamped later and is None here). -/
structure Request where
  method : Method
  target : List Nat
  version : HttpVersion
  headers : HeaderMap
  body : Body
  remote : Option Unit
  deriving DecidableEq, Repr

/-- Final assembly, from RequestLine::to_output in http/parser/line.rs: a
missing Host header is MissingRequiredHeader (location Headers, offset 0);
otherwise the method is built with Method::try_from whose error is
unwrapped (a panic for a non-ASCII method token). -/
def RequestLine.to_output (headerBytes : List Nat) (d : RequestLineData) (headers : HeaderMap)
    (body : Body) : PResult Request :=
  if mapContains headers (.builtin .Host) then
    match Method.try_from (sliceRange headerBytes d.method) with
    | .error _ => .panic
    | .ok m => .ok ⟨m, sliceRange headerBytes d.target, d.version, headers, body, Option.none⟩
  else .err ⟨.missingRequiredHeader, .headers, 0, Option.none⟩

/-- Whole-request parsing, from Parser::parse_request composed of
parse_message phases: head scan, head freeze and header map construction,
body framing, and to_output.  Returns the request together with the bytes
left unconsumed in the reader. -/
def parse_request (input : List Nat) : PResult (Request × List Nat) :=
  match parseHead input with
  | .panic => .panic
  | .err e => .err e
  | .ok hd =>
    let headerBytes := input.take hd.consumed
    let rest := input.drop hd.consumed
    match buildHeaderMap headerBytes hd.hdrs [] with
    | .panic => .panic
    | .err e => .err e
    | .ok m =>
      match frameBody m rest with
      | .panic => .panic
      | .err e => .err e
      | .ok (body, rest2) =>
        match RequestLine.to_output headerBytes hd.sline m body with
        | .panic => .panic
        | .err e => .err e
        | .ok req => .ok (req, rest2)

/-! ## Response serializer, from Sender in http/parser/mod.rs -/

/-- A response, from Response in http/response/mod.rs (message is the
reason-phrase byte string). -/
structure Response where
  version : HttpVersion
  status : StatusCode
  message : List Nat
  headers : HeaderMap
  body : Body
  deriving DecidableEq, Repr

/-- Modelled from the spec: HeaderValue::collect is called by
Sender::send_headers but is not defined in the files under src; per the
specification the segments of a header value are joined with a comma and a
space. -/
def collectValue (vals : List (List Nat)) : List Nat :=
  List.intercalate [44, 32] vals

/-- Header block serialization, from Sender::send_headers in
http/parser/mod.rs: one name colon space value CRLF line per map entry in
iteration order, then the terminating CRLF.  (The HeaderName Display
instance is the delegation to the Builtin and Custom Display instances of
http/header/mod.rs.) -/
def send_headers (m : HeaderMap) : List Nat :=
  (m.map fun p => p.1.displayBytes ++ strBytes ": " ++ collectValue p.2 ++ [13, 10]).flatten
    ++ [13, 10]

/-- Status line bytes, from the write! at the start of
Sender::send_response: version, space, status, space, reason, CRLF. -/
def statusLineBytes (version : HttpVersion) (status : StatusCode) (message : List Nat) :
    List Nat :=
  version.displayBytes ++ [32] ++ natDecimal status.val ++ [32] ++ message ++ [13, 10]

/-- Response serialization, from Sender::send_response in
http/parser/mod.rs: status line (the reason phrase goes through
str::from_utf8 whose error is unwrapped, a panic for a non-UTF-8 reason),
then the header block, then the raw body bytes; the function writes the
headers exactly as found in the map. -/
def Sender.send_response (r : Response) : PResult (List Nat) :=
  if isValidUtf8 r.message then
    .ok (statusLineBytes r.version r.status r.message ++ send_headers r.headers ++
      (match r.body with | .none => [] | .full bs => bs))
  else .panic

/-- Modelled from the spec: the serializer described in section 4.E, which
must insert a Content-Length header carrying the byte length of a Full body
when the header is absent, and otherwise writes the same bytes as the
source serializer.  Stated for comparison with Sender.send_response. -/
def send_response_spec (r : Response) : PResult (List Nat) :=
  let headers2 := match r.body with
    | .full bs =>
      if mapContains r.headers (.builtin .ContentLength) then r.headers
      else r.headers ++ [(.builtin .ContentLength, [natDecimal bs.length])]
    | .none => r.headers
  if isValidUtf8 r.message then
    .ok (statusLineBytes r.version r.status r.message ++ send_headers headers2 ++
      (match r.body with | .none => [] | .full bs => bs))
  else .panic

/-! ## Response builder, from http/response/builder.rs -/

/-- Builder state, from ResponseBuilder in http/response/builder.rs. -/
structure ResponseBuilder where
  version : HttpVersion
  status : StatusCode
  message : List Nat
  headers : HeaderMap
  body : Body
  deriving DecidableEq, Repr

/-- The body method, from ResponseBuilder::body in
http/response/builder.rs: store the Full body, then
set_header for ContentLength, which runs the u64 to_header_value of
http/header/impls.rs on the entry of the Content-Length name: when the
entry already holds a value the todo!() there panics, otherwise the decimal
length string is pushed onto the (possibly freshly inserted) entry. -/
def builderBody (b : ResponseBuilder) (bytes : List Nat) : PResult ResponseBuilder :=
  let b2 := { b with body := Body.full bytes }
  match mapFind b.headers (.builtin .ContentLength) with
  | Option.none =>
    .ok { b2 with
      headers := mapEntryPush b.headers (.builtin .ContentLength) (natDecimal bytes.length) }
  | some vals =>
    if vals.isEmpty then
      .ok { b2 with
        headers := mapEntryPush b.headers (.builtin .ContentLength) (natDecimal bytes.length) }
    else .panic

/-- Contiguous subsequence test (does the needle occur inside the haystack),
used to state the absence of a header line in serialized output. -/
def containsSeq (needle hay : List Nat) : Bool :=
  match hay with
  | [] => needle.isEmpty
  | _ :: t => needle.isPrefixOf hay || containsSeq needle t

/-! ## Claim theorems -/

/-! ## Helper lemmas for the codec -/

/-- Decoding inverts the hex table on each nibble. -/
theorem hex_to_digit_hexUpper (d : Nat) (hd : d < 16) :
    hex_to_digit (hexUpper d) = .ok d := by
  interval_cases d <;> rfl

/-- An unreserved byte is not the percent sign. -/
theorem is_unreserved_ne_percent (b : Nat) (h : is_unreserved b = true) : b ≠ 37 := by
  intro hb
  subst hb
  simp [is_unreserved] at h

/-- Unfolding lemma for url_decode_bytes on a non-percent head byte. -/
theorem url_decode_bytes_cons_ne (b : Nat) (l : List Nat) (h : b ≠ 37) :
    url_decode_bytes (b :: l) = (url_decode_bytes l).map (fun ds => b :: ds) := by
  have hb : (b == 37) = false := by simpa using h
  cases l with
  | nil => simp [url_decode_bytes, hb]
  | cons h1 t =>
    cases t with
    | nil => simp [url_decode_bytes, hb]
    | cons h2 r2 => simp [url_decode_bytes, hb]

/-- Unfolding lemma for url_decode_bytes on a percent triple with valid digits. -/
theorem url_decode_bytes_percent (h1 h2 : Nat) (r2 : List Nat) (hi lo : Nat)
    (e1 : hex_to_digit h1 = .ok hi) (e2 : hex_to_digit h2 = .ok lo) :
    url_decode_bytes (37 :: h1 :: h2 :: r2) =
      (url_decode_bytes r2).map (fun ds => (hi * 16 + lo) :: ds) := by
  simp [url_decode_bytes, e1, e2]

/-- The byte loop of url_decode inverts url_encode on u8 sequences. -/
theorem url_decode_bytes_url_encode (B : List Nat) (hB : (B.all fun b => b < 256) = true) :
    url_decode_bytes (url_encode B) = .ok B := by
  induction B with
  | nil => rfl
  | cons b rest ih =>
    simp only [List.all_cons, Bool.and_eq_true, decide_eq_true_eq] at hB
    obtain ⟨hb, hrest⟩ := hB
    have ihr := ih (by simpa using hrest)
    by_cases hu : is_unreserved b = true
    · have hne : b ≠ 37 := is_unreserved_ne_percent b hu
      simp only [url_encode, hu, if_true]
      rw [url_decode_bytes_cons_ne b _ hne, ihr]
      rfl
    · simp only [url_encode, hu, Bool.false_eq_true, if_false]
      have hdiv : b / 16 < 16 := by omega
      have hmod : b % 16 < 16 := by omega
      rw [url_decode_bytes_percent _ _ _ _ _
        (hex_to_digit_hexUpper _ hdiv) (hex_to_digit_hexUpper _ hmod), ihr]
      have hdm : b / 16 * 16 + b % 16 = b := by omega
      simp [Except.map, hdm]


/-- C1 counterexample: the status mapping of the code sends
VersionNotSupported, TooLarge of BodyBytes, and Timeout errors to the
catch-all arm, status 500 (INTERNAL_SERVER_ERROR), not to 505, 413 and 408
as the claim states. -/
theorem c1_counterexample :
    (HttpParseError.mk .versionNotSupported .startLine 0 Option.none).status_code ≠ ⟨505⟩ ∧
    (HttpParseError.mk (.tooLarge .bodyBytes 100 200) .body 0 Option.none).status_code ≠ ⟨413⟩ ∧
    (HttpParseError.mk (.tooLarge .headerCount 100 200) .headers 0 Option.none).status_code
      ≠ ⟨431⟩ ∧
    (HttpParseError.mk .timeout .headers 0 Option.none).status_code ≠ ⟨408⟩ := by
  refine ⟨by decide, by decide, by decide, by decide⟩

/-- C1 (amended): HttpParseError::status_code maps every VersionNotSupported,
TooLarge (of any limit kind), Timeout and Io error to status 500, the
INTERNAL_SERVER_ERROR catch-all arm; only the listed syntax, header and
framing kinds receive 400. -/
theorem c1_status_code_mapping :
    (∀ loc off ln, (HttpParseError.mk .versionNotSupported loc off ln).status_code = ⟨500⟩) ∧
    (∀ w lim act loc off ln,
      (HttpParseError.mk (.tooLarge w lim act) loc off ln).status_code = ⟨500⟩) ∧
    (∀ loc off ln, (HttpParseError.mk .timeout loc off ln).status_code = ⟨500⟩) ∧
    (∀ k loc off ln, (HttpParseError.mk (.ioError k) loc off ln).status_code = ⟨500⟩) ∧
    (∀ loc off ln, (HttpParseError.mk .missingRequiredHeader loc off ln).status_code = ⟨400⟩) := by
  exact ⟨fun _ _ _ => rfl, fun _ _ _ _ _ _ => rfl, fun _ _ _ => rfl,
    fun _ _ _ _ => rfl, fun _ _ _ => rfl⟩

/-- C4: a non-empty header line starting with SP (obsolete line folding, the
input of scenario S6 of the spec) drives parse_request into the todo!()
at the obsolete-line-folding branch of Parser::parse_message, a panic,
instead of the MalformedHeaderLine error the specification requires. -/
theorem c4_obs_fold_panics :
    parse_request (strBytes "GET / HTTP/1.1\r\nHost: x\r\nX: a\r\n b\r\n\r\n") = .panic := by
  rfl

/-- C5 counterexample: a request carrying version HTTP/2.0 parses
successfully (no VersionNotSupported and no rejection), refuting the claim
that only versions 1.1 and 1.0 are accepted. -/
theorem c5_counterexample :
    parse_request (strBytes "GET / HTTP/2.0\r\nHost: x\r\n\r\n") =
      .ok (⟨.builtin .GET, [47], ⟨2, 0⟩, [(.builtin .Host, [[120]])], .none, Option.none⟩, []) := by
  rfl

/-- C5 (amended): HttpVersion::from_str accepts every version of the shape
HTTP/major.minor with u8 components, including 0.9, 2.0 and 255.255 (and
rejects out-of-range components), and RequestLine::parse never produces a
VersionNotSupported error: its only error kinds are MalformedHeaderLine and
InvalidVersion. -/
theorem c5_version_policy :
    HttpVersion.from_str (strBytes "HTTP/1.1") = some ⟨1, 1⟩ ∧
    HttpVersion.from_str (strBytes "HTTP/1.0") = some ⟨1, 0⟩ ∧
    HttpVersion.from_str (strBytes "HTTP/0.9") = some ⟨0, 9⟩ ∧
    HttpVersion.from_str (strBytes "HTTP/2.0") = some ⟨2, 0⟩ ∧
    HttpVersion.from_str (strBytes "HTTP/255.255") = some ⟨255, 255⟩ ∧
    HttpVersion.from_str (strBytes "HTTP/256.0") = Option.none ∧
    (∀ l e, RequestLine.parse l = .error e →
      e.kind = .malformedHeaderLine ∨ e.kind = .invalidVersion) := by
  refine ⟨rfl, rfl, rfl, rfl, rfl, rfl, ?_⟩
  intro l e h
  simp only [RequestLine.parse] at h
  repeat' split at h
  all_goals cases h
  all_goals first | exact Or.inl rfl | exact Or.inr rfl

/-- C5 witness: the last conjunct of the amended theorem applied at a
concrete malformed start line (a line with a single word). -/
theorem c5_witness :
    (HttpParseError.mk .malformedHeaderLine .startLine 3 Option.none).kind
        = .malformedHeaderLine ∨
      (HttpParseError.mk .malformedHeaderLine .startLine 3 Option.none).kind
        = .invalidVersion :=
  c5_version_policy.2.2.2.2.2.2 ⟨strBytes "GET" ++ [13, 10], 0, 3⟩
    (HttpParseError.mk .malformedHeaderLine .startLine 3 Option.none) (by rfl)

/-- C6 counterexample: the byte 0xFF encodes to the percent triple that the
decoder rejects at the String::from_utf8 step, so the round trip fails for
this byte sequence. -/
theorem c6_counterexample :
    url_decode (url_encode [255]) = .error .invalidUtf8 := by
  rfl

/-- C6 (amended): for every u8 sequence whose bytes form valid UTF-8 (the
output type of url_decode is String, so decoding can only return UTF-8
content), url_decode inverts url_encode. -/
theorem c6_roundtrip (B : List Nat) (h1 : (B.all fun b => b < 256) = true)
    (h2 : isValidUtf8 B = true) :
    url_decode (url_encode B) = .ok B := by
  unfold url_decode
  rw [url_decode_bytes_url_encode B h1]
  simp [h2]

/-- C6 witness: the round trip at a concrete byte sequence containing an
unreserved letter, a reserved plus sign and a percent sign. -/
theorem c6_roundtrip_witness :
    (([97, 43, 98, 37].all fun b => b < 256) = true) ∧
    isValidUtf8 [97, 43, 98, 37] = true ∧
    url_decode (url_encode [97, 43, 98, 37]) = .ok [97, 43, 98, 37] :=
  ⟨by decide, by decide, c6_roundtrip [97, 43, 98, 37] (by decide) (by decide)⟩

/-- A successfully constructed Method has an ASCII token. -/
theorem Method.try_from_isAscii (bs : List Nat) (m : Method)
    (h : Method.try_from bs = .ok m) : m.isAscii = true := by
  unfold Method.try_from at h
  split at h
  · rename_i hall
    split at h <;> cases h
    · rfl
    · simpa [Method.isAscii] using hall
  · cases h

/-- To-output always succeeds when Host is present and the method token is
ASCII, and it preserves the body it is given. -/
theorem to_output_ok (headerBytes : List Nat) (d : RequestLineData) (m : HeaderMap)
    (body : Body) (hhost : mapContains m (.builtin .Host) = true)
    (hascii : ((sliceRange headerBytes d.method).all fun b => b < 128) = true) :
    ∃ req, RequestLine.to_output headerBytes d m body = .ok req ∧ req.body = body := by
  unfold RequestLine.to_output
  rw [if_pos hhost]
  unfold Method.try_from
  rw [if_pos hascii]
  cases hmb : MethodBuiltin.from_bytes (sliceRange headerBytes d.method) with
  | some b => exact ⟨_, rfl, rfl⟩
  | none => exact ⟨_, rfl, rfl⟩

/-- C2: with no Transfer-Encoding and exactly one Content-Length value
parsing to N, parse_request consumes exactly N octets after the head as the
Full body; with neither header the body is None and nothing is consumed
(Host presence and an ASCII method token are the success side conditions of
the remaining pipeline). -/
theorem c2_body_framing (input : List Nat) (hd : HeadData) (m : HeaderMap)
    (h1 : parseHead input = .ok hd)
    (h2 : buildHeaderMap (input.take hd.consumed) hd.hdrs [] = .ok m)
    (hte : mapFind m (.builtin .TransferEncoding) = Option.none)
    (hhost : mapContains m (.builtin .Host) = true)
    (hascii : ((sliceRange (input.take hd.consumed) hd.sline.method).all fun b => b < 128)
      = true) :
    (∀ v N, mapFind m (.builtin .ContentLength) = some [v] →
      contentLengthFromValue [v] = .ok N →
      N ≤ (input.drop hd.consumed).length →
      ∃ req, parse_request input = .ok (req, (input.drop hd.consumed).drop N) ∧
        req.body = .full ((input.drop hd.consumed).take N)) ∧
    (mapFind m (.builtin .ContentLength) = Option.none →
      ∃ req, parse_request input = .ok (req, input.drop hd.consumed) ∧
        req.body = .none) := by
  constructor
  · intro v N hcl hclv hlen
    have hfb : frameBody m (input.drop hd.consumed) =
        .ok (.full ((input.drop hd.consumed).take N), (input.drop hd.consumed).drop N) := by
      unfold frameBody
      simp only [hte, hcl, hclv]
      rw [if_pos hlen]
    obtain ⟨req, hreq, hbody⟩ :=
      to_output_ok (input.take hd.consumed) hd.sline m
        (.full ((input.drop hd.consumed).take N)) hhost hascii
    refine ⟨req, ?_, hbody⟩
    simp only [parse_request, h1, h2, hfb, hreq]
  · intro hcl
    have hfb : frameBody m (input.drop hd.consumed) = .ok (.none, input.drop hd.consumed) := by
      unfold frameBody
      simp only [hte, hcl]
    obtain ⟨req, hreq, hbody⟩ :=
      to_output_ok (input.take hd.consumed) hd.sline m .none hhost hascii
    refine ⟨req, ?_, hbody⟩
    simp only [parse_request, h1, h2, hfb, hreq]

/-- C2 witness: the theorem at the POST scenario of the spec
(scenario S2), whose Content-Length is 5 and whose body is ABCDE. -/
theorem c2_witness :
    ∃ req, parse_request (strBytes "POST /a HTTP/1.1\r\nHost: x\r\nContent-Length: 5\r\n\r\nABCDE")
        = .ok (req, []) ∧ req.body = .full (strBytes "ABCDE") := by
  have h := (c2_body_framing
    (strBytes "POST /a HTTP/1.1\r\nHost: x\r\nContent-Length: 5\r\n\r\nABCDE")
    ⟨⟨(0, 4), (5, 7), ⟨1, 1⟩⟩, [⟨(18, 22), (24, 25)⟩, ⟨(27, 41), (43, 44)⟩], 48⟩
    [(.builtin .Host, [[120]]), (.builtin .ContentLength, [[53]])]
    (by rfl) (by rfl) (by rfl) (by rfl) (by rfl)).1 [53] 5 (by rfl) (by rfl) (by decide)
  simpa using h

/-- C3 counterexample: an HTTP/1.1 request without Host but with a
Transfer-Encoding header panics in the todo!() of
TransferEncodingKind::from_header_value (reached through get_header before
the Host check runs), so parsing does not fail with MissingRequiredHeader
on every Host-less request. -/
theorem c3_counterexample :
    parse_request (strBytes "GET / HTTP/1.1\r\nTransfer-Encoding: chunked\r\n\r\n") = .panic := by
  rfl

/-- C3 (amended): whenever the head scan, header map construction and body
framing complete without error or panic (in particular no Transfer-Encoding
header) and the map lacks Host, parse_request fails with
MissingRequiredHeader (location Headers, offset 0), and that error maps to
status 400. -/
theorem c3_missing_host (input : List Nat) (hd : HeadData) (m : HeaderMap) (fb : Body × List Nat)
    (h1 : parseHead input = .ok hd)
    (h2 : buildHeaderMap (input.take hd.consumed) hd.hdrs [] = .ok m)
    (h3 : frameBody m (input.drop hd.consumed) = .ok fb)
    (h4 : mapContains m (.builtin .Host) = false) :
    parse_request input = .err ⟨.missingRequiredHeader, .headers, 0, Option.none⟩ ∧
    (HttpParseError.mk .missingRequiredHeader .headers 0 Option.none).status_code = ⟨400⟩ := by
  obtain ⟨body, rest2⟩ := fb
  constructor
  · have hto : RequestLine.to_output (input.take hd.consumed) hd.sline m body =
        .err ⟨.missingRequiredHeader, .headers, 0, Option.none⟩ := by
      unfold RequestLine.to_output
      rw [if_neg]
      simp [h4]
    simp only [parse_request, h1, h2, h3, hto]
  · rfl

/-- C3 witness: the amended theorem at scenario S4-like input, an HTTP/1.1
request whose only header is a custom one. -/
theorem c3_witness :
    parse_request (strBytes "GET / HTTP/1.1\r\nX: y\r\n\r\n") =
      .err ⟨.missingRequiredHeader, .headers, 0, Option.none⟩ ∧
    (HttpParseError.mk .missingRequiredHeader .headers 0 Option.none).status_code = ⟨400⟩ :=
  c3_missing_host (strBytes "GET / HTTP/1.1\r\nX: y\r\n\r\n")
    ⟨⟨(0, 3), (4, 5), ⟨1, 1⟩⟩, [⟨(16, 17), (19, 20)⟩], 24⟩
    [(.custom [88], [[121]])] (.none, [])
    (by rfl) (by rfl) (by rfl) (by rfl)

/-- C8 counterexample: a start line whose method token contains a non-tchar
byte (the at sign, 64) still yields a successfully parsed request with a
custom method, refuting the claim that such start lines never parse. -/
theorem c8_counterexample :
    parse_request (strBytes "G@T / HTTP/1.1\r\nHost: x\r\n\r\n") =
      .ok (⟨.custom [71, 64, 84], [47], ⟨1, 1⟩, [(.builtin .Host, [[120]])], .none,
        Option.none⟩, []) := by
  rfl

/-- C8 (amended): the only validation applied to the method token is the
ASCII check of Method::try_from (a non-ASCII token panics through unwrap,
and empty or non-tchar ASCII tokens are accepted as custom methods): every
successfully parsed request has an ASCII method token. -/
theorem c8_method_ascii (input : List Nat) (req : Request) (rest2 : List Nat)
    (h : parse_request input = .ok (req, rest2)) : req.method.isAscii = true := by
  simp only [parse_request] at h
  cases hph : parseHead input with
  | panic => simp only [hph] at h; cases h
  | err e => simp only [hph] at h; cases h
  | ok hd =>
    simp only [hph] at h
    cases hbm : buildHeaderMap (input.take hd.consumed) hd.hdrs [] with
    | panic => simp only [hbm] at h; cases h
    | err e => simp only [hbm] at h; cases h
    | ok m =>
      simp only [hbm] at h
      cases hfb : frameBody m (input.drop hd.consumed) with
      | panic => simp only [hfb] at h; cases h
      | err e => simp only [hfb] at h; cases h
      | ok p =>
        obtain ⟨body, rst⟩ := p
        simp only [hfb] at h
        cases hto : RequestLine.to_output (input.take hd.consumed) hd.sline m body with
        | panic => simp only [hto] at h; cases h
        | err e => simp only [hto] at h; cases h
        | ok req2 =>
          simp only [hto] at h
          cases h
          simp only [RequestLine.to_output] at hto
          split at hto
          · split at hto
            · cases hto
            · cases hto
              exact Method.try_from_isAscii _ _ (by assumption)
          · cases hto

/-- C8 witness: the amended theorem at the basic GET scenario. -/
theorem c8_witness :
    (Request.mk (.builtin .GET) [47] ⟨1, 1⟩ [(.builtin .Host, [[120]])] .none
      Option.none).method.isAscii = true :=
  c8_method_ascii (strBytes "GET / HTTP/1.1\r\nHost: x\r\n\r\n")
    (Request.mk (.builtin .GET) [47] ⟨1, 1⟩ [(.builtin .Host, [[120]])] .none Option.none)
    [] (by rfl)

/-- C7 counterexample: a response with a Full body and no Content-Length
header is written to the wire without any Content-Length bytes; the
serializer does not insert the header. -/
theorem c7_counterexample :
    Sender.send_response ⟨⟨1, 1⟩, ⟨200⟩, strBytes "OK", [], .full (strBytes "hi")⟩ =
      .ok (strBytes "HTTP/1.1 200 OK\r\n\r\nhi") ∧
    containsSeq (strBytes "Content-Length") (strBytes "HTTP/1.1 200 OK\r\n\r\nhi") = false := by
  exact ⟨by rfl, by rfl⟩

/-- C7 (amended): Sender::send_response writes the header map exactly as it
finds it; it agrees with the spec serializer (which inserts Content-Length
for a Full body) precisely when no insertion is called for, that is when a
Full body implies the header is already present.  The Content-Length of a
built response comes from ResponseBuilder::body, not from the serializer. -/
theorem c7_serializer_no_insert (r : Response)
    (h : ∀ bs, r.body = .full bs → mapContains r.headers (.builtin .ContentLength) = true) :
    Sender.send_response r = send_response_spec r := by
  unfold Sender.send_response send_response_spec
  cases hb : r.body with
  | none => rfl
  | full bs => simp [h bs hb]

/-- C7 witness: the amended theorem at a concrete response carrying no
body and one unrelated header. -/
theorem c7_witness :
    Sender.send_response ⟨⟨1, 1⟩, ⟨200⟩, strBytes "OK", [(.builtin .ContentType, [[97]])], .none⟩
      = send_response_spec
        ⟨⟨1, 1⟩, ⟨200⟩, strBytes "OK", [(.builtin .ContentType, [[97]])], .none⟩ :=
  c7_serializer_no_insert _ (fun _ h => Body.noConfusion h)

/-- Builtin header recognition only depends on the lowercased bytes. -/
theorem HeaderBuiltin.from_str_congr (bs1 bs2 : List Nat)
    (hlow : lowerBytes bs1 = lowerBytes bs2) :
    HeaderBuiltin.from_str bs1 = HeaderBuiltin.from_str bs2 := by
  have hlen : bs1.length = bs2.length := by
    have e1 : (lowerBytes bs1).length = bs1.length := by simp [lowerBytes]
    have e2 : (lowerBytes bs2).length = bs2.length := by simp [lowerBytes]
    rw [← e1, ← e2, hlow]
  unfold HeaderBuiltin.from_str
  rw [hlen, hlow]

/-- C9 counterexample: the names X-A and x-a differ only in ASCII letter
case (their lowercased bytes agree), both construct custom HeaderName
values, and those values are not equal, refuting case-insensitive equality
for names outside the built-in set. -/
theorem c9_counterexample :
    HeaderName.try_from [88, 45, 65] = .ok (.custom [88, 45, 65]) ∧
    HeaderName.try_from [120, 45, 97] = .ok (.custom [120, 45, 97]) ∧
    lowerBytes [88, 45, 65] = lowerBytes [120, 45, 97] ∧
    HeaderName.custom [88, 45, 65] ≠ HeaderName.custom [120, 45, 97] := by
  exact ⟨by rfl, by rfl, by rfl, by decide⟩

/-- C9 (amended): case-insensitive equality holds exactly for the built-in
set: two ASCII names with equal lowercasings, one of which is recognised as
a built-in, construct the same built-in HeaderName value (and equal values
trivially agree on any hash); custom names instead compare by their raw
bytes. -/
theorem c9_builtin_case_insensitive (bs1 bs2 : List Nat) (b : HeaderBuiltin)
    (ha1 : (bs1.all fun x => x < 128) = true) (ha2 : (bs2.all fun x => x < 128) = true)
    (hlow : lowerBytes bs1 = lowerBytes bs2)
    (hb : HeaderBuiltin.from_str bs1 = some b) :
    HeaderName.try_from bs1 = .ok (.builtin b) ∧
    HeaderName.try_from bs2 = .ok (.builtin b) := by
  have hb2 : HeaderBuiltin.from_str bs2 = some b := by
    rw [← HeaderBuiltin.from_str_congr bs1 bs2 hlow]
    exact hb
  constructor
  · unfold HeaderName.try_from
    rw [if_pos ha1, hb]
  · unfold HeaderName.try_from
    rw [if_pos ha2, hb2]

/-- C9 witness: the amended theorem at the byte strings HOST and host. -/
theorem c9_witness :
    HeaderName.try_from [72, 79, 83, 84] = .ok (.builtin .Host) ∧
    HeaderName.try_from [104, 111, 115, 116] = .ok (.builtin .Host) :=
  c9_builtin_case_insensitive [72, 79, 83, 84] [104, 111, 115, 116] .Host
    (by decide) (by decide) (by rfl) (by rfl)

/-- Entry insertion for an absent key appends a fresh entry at the end. -/
theorem mapEntryPush_absent (m : HeaderMap) (k : HeaderName) (v : List Nat)
    (h : mapFind m k = Option.none) : mapEntryPush m k v = m ++ [(k, [v])] := by
  induction m with
  | nil => rfl
  | cons p rest ih =>
    obtain ⟨k2, vs⟩ := p
    simp only [mapFind] at h
    by_cases hk : k2 = k
    · rw [if_pos hk] at h
      cases h
    · rw [if_neg hk] at h
      simp only [mapEntryPush, List.cons_append]
      rw [if_neg hk, ih h]

/-- Appending a fresh entry leaves lookups of other names unchanged. -/
theorem mapFind_append_ne (m : HeaderMap) (k n : HeaderName) (v : List (List Nat))
    (h : n ≠ k) : mapFind (m ++ [(k, v)]) n = mapFind m n := by
  induction m with
  | nil =>
    simp only [List.nil_append, mapFind]
    rw [if_neg (fun hh => h hh.symm)]
  | cons p rest ih =>
    obtain ⟨k2, vs⟩ := p
    simp only [List.cons_append, mapFind]
    by_cases hk : k2 = n
    · rw [if_pos hk, if_pos hk]
    · rw [if_neg hk, if_neg hk]
      exact ih

/-- C10 counterexample: on a builder whose Content-Length header is already
set, ResponseBuilder::body reaches the todo!() in the u64 to_header_value
and panics instead of setting the header to the new body length. -/
theorem c10_counterexample :
    builderBody ⟨⟨1, 1⟩, ⟨200⟩, [], [(.builtin .ContentLength, [[51]])], .none⟩ [] = .panic := by
  rfl

/-- C10 (amended): when the builder holds no Content-Length entry yet,
body(bytes) stores Full(bytes), appends a Content-Length entry holding the
decimal byte length, and leaves version, status, reason message and every
other header entry unchanged. -/
theorem c10_builder_body (b : ResponseBuilder) (bytes : List Nat)
    (h : mapFind b.headers (.builtin .ContentLength) = Option.none) :
    builderBody b bytes = .ok { b with
        body := Body.full bytes,
        headers := b.headers ++ [(.builtin .ContentLength, [natDecimal bytes.length])] } ∧
    (∀ n, n ≠ .builtin .ContentLength →
      mapFind (b.headers ++ [(.builtin .ContentLength, [natDecimal bytes.length])]) n =
        mapFind b.headers n) := by
  constructor
  · unfold builderBody
    rw [h, mapEntryPush_absent b.headers _ _ h]
  · intro n hn
    exact mapFind_append_ne b.headers _ n _ hn

/-- C10 witness: the amended theorem at a concrete builder holding one
custom header, with a two-byte body. -/
theorem c10_witness :
    builderBody ⟨⟨1, 1⟩, ⟨200⟩, strBytes "OK", [(.custom [88], [[97]])], .none⟩ (strBytes "hi") =
      .ok ⟨⟨1, 1⟩, ⟨200⟩, strBytes "OK",
        [(.custom [88], [[97]]), (.builtin .ContentLength, [natDecimal 2])],
        .full (strBytes "hi")⟩ :=
  (c10_builder_body ⟨⟨1, 1⟩, ⟨200⟩, strBytes "OK", [(.custom [88], [[97]])], .none⟩
    (strBytes "hi") (by rfl)).1
